import Mathlib

/-!
Verification development for the dew-finance-sdk proposal-lifecycle and
chain-signature extraction engine.

The TypeScript sources are shallowly embedded: JS values flowing out of
`JSON.parse` are modelled by `JVal`, JSON numbers as exact decimal
`mantissa × 10^exp` pairs (the float rounding and overflow of JS numbers are
outside the fragment exercised by these claims), byte strings decoded from
base64 with `Buffer.from(s, "base64").toString()` are modelled for the ASCII
fragment (non-ASCII bytes map to the replacement character), and fallible
TS functions return `Option`/`Except`.
-/

set_option maxRecDepth 8192

namespace DewSpec

/-! ### Characters and character-list utilities -/

/-- JSON whitespace characters accepted by `JSON.parse`. -/
def jsonWs (c : Char) : Bool :=
  c = ' ' || c = '\t' || c = '\n' || c = '\r'

/-- ASCII decimal digit test (the `\d` character class). -/
def digitChar (c : Char) : Bool :=
  48 ≤ c.toNat && c.toNat ≤ 57

/-- Drop leading JSON whitespace. -/
def dropWs : List Char → List Char
  | c :: cs => if jsonWs c then dropWs cs else c :: cs
  | [] => []

/-- Split off the longest leading run of decimal digits. -/
def grabDigits : List Char → List Char × List Char
  | [] => ([], [])
  | c :: cs =>
    if !digitChar c then ([], c :: cs)
    else
      match grabDigits cs with
      | (ds, rest) => (c :: ds, rest)

/-- Numeric value of a list of decimal digit characters. -/
def digitsVal (ds : List Char) : Nat :=
  ds.foldl (fun acc d => 10 * acc + (d.toNat - 48)) 0

/-- `pat` occurs at the start of `l` (character-exact). -/
def leadsWith : List Char → List Char → Bool
  | p :: ps, c :: cs => p = c && leadsWith ps cs
  | pat, _ => pat.isEmpty

/-- `pat` occurs somewhere inside `l` (the semantics of `String.prototype.includes`). -/
def insideOf (pat : List Char) : List Char → Bool
  | [] => leadsWith pat []
  | c :: cs => leadsWith pat (c :: cs) || insideOf pat cs

/-- `s.includes(pat)` on JS strings. -/
def strIncludes (s pat : String) : Bool := insideOf pat.toList s.toList

/-- `s.startsWith(pat)` on JS strings. -/
def strBeginsWith (s pat : String) : Bool := leadsWith pat.toList s.toList

/-- `s.slice(n)` on JS strings. -/
def strDropChars (s : String) (n : Nat) : String := String.mk (s.toList.drop n)

/-- `s.toLowerCase()` restricted to the ASCII letters the sources compare. -/
def lowerAscii (s : String) : String :=
  String.mk (s.toList.map fun c =>
    if 'A' ≤ c && c ≤ 'Z' then Char.ofNat (c.toNat + 32) else c)

/-! ### JS values produced by `JSON.parse` -/

/-- A JS number as an exact decimal `mant × 10^exp10`. -/
structure JsNumber where
  mant : Int
  exp10 : Int
deriving DecidableEq, Repr

/-- A JS value as produced by `JSON.parse`. -/
inductive JVal where
  | jnull
  | jbool (b : Bool)
  | jnum (n : JsNumber)
  | jstr (s : String)
  | jarr (items : List JVal)
  | jobj (members : List (String × JVal))
deriving Inhabited

/-- Property lookup on a JS object literal: the last duplicate key wins,
as in the object `JSON.parse` builds. `none` models `undefined`, which is
also what property access on arrays, strings, numbers and booleans yields
for these keys. -/
def lookupMember (k : String) : List (String × JVal) → Option JVal
  | [] => none
  | (k', v) :: rest =>
    match lookupMember k rest with
    | some w => some w
    | none => if k' = k then some v else none

/-- `v[k]` for the property names the sources read; `none` is `undefined`. -/
def jmember (v : JVal) (k : String) : Option JVal :=
  match v with
  | .jobj ms => lookupMember k ms
  | _ => none

/-- JS truthiness of a parsed JSON value. -/
def jtruthy : JVal → Bool
  | .jnull => false
  | .jbool b => b
  | .jnum n => n.mant ≠ 0
  | .jstr s => s ≠ ""
  | .jarr _ => true
  | .jobj _ => true

/-- `typeof v === "object"` (true for objects, arrays and `null`). -/
def jtypeofObject : JVal → Bool
  | .jnull => true
  | .jarr _ => true
  | .jobj _ => true
  | _ => false

/-! ### IEEE-754 double rounding for the integer fragment

`JSON.parse` and `parseInt` produce doubles, which carry only 53 bits of
mantissa: integers above `2 ^ 53` round to the nearest representable even
multiple (round half to even). The conversions below apply exactly that
rounding to every integer-valued numeral. Non-integer numerals are carried
as their exact decimal, and a rounded magnitude at or beyond `2 ^ 1024`
(`Infinity` in JS, detected by the `Number.isFinite` guard below) is
carried as the rounded integer itself: both are documented model
boundaries that no claim's integer proposal-id fragment reaches. -/

/-- Number of binary digits of `n`, by fuelled halving. Any `fuel ≥ n`
suffices, since the bit length never exceeds the value; evaluation only
takes one step per bit. -/
def bitWidthFuel : Nat → Nat → Nat
  | 0, _ => 0
  | fuel + 1, n => if n = 0 then 0 else bitWidthFuel fuel (n / 2) + 1

/-- Number of binary digits of `n`. -/
def bitWidth (n : Nat) : Nat := bitWidthFuel n n

/-- Round a natural number to 53-bit double precision, half to even.
Values at or below `2 ^ 53` are exact. -/
def roundNatToDoublePrecision (n : Nat) : Nat :=
  if n ≤ 2 ^ 53 then n
  else
    let unit := 2 ^ (bitWidth n - 53)
    let down := n / unit
    let rest := n % unit
    let nudge := if rest * 2 > unit || (rest * 2 = unit && down % 2 = 1) then 1 else 0
    (down + nudge) * unit

/-- The double value a decimal numeral denotes, in the integer fragment:
integer-valued numerals (including forms like `1.0` and `2e3`) become their
rounded integer with exponent zero; non-integer numerals stay exact (see
the section comment). -/
def decimalToDoubleValue (dec : JsNumber) : JsNumber :=
  if dec.exp10 ≥ 0 then
    let magnitude := roundNatToDoublePrecision (dec.mant.natAbs * 10 ^ dec.exp10.toNat)
    ⟨if dec.mant < 0 then -(magnitude : Int) else (magnitude : Int), 0⟩
  else
    let scale := 10 ^ (-dec.exp10).toNat
    if dec.mant.natAbs % scale = 0 then
      let magnitude := roundNatToDoublePrecision (dec.mant.natAbs / scale)
      ⟨if dec.mant < 0 then -(magnitude : Int) else (magnitude : Int), 0⟩
    else dec

/-- `Number.isFinite` on an observed double value: an integer magnitude at
or beyond `2 ^ 1024` stands for `Infinity`. -/
def isFiniteNumber (v : JsNumber) : Bool :=
  if v.exp10 ≥ 0 then v.mant.natAbs * 10 ^ v.exp10.toNat < 2 ^ 1024 else true

/-! ### A JSON parser with the acceptance behaviour of `JSON.parse`

Structural recursion throughout (the value parser recurses on an explicit
fuel bound by the input length), so every parse of a concrete string reduces
by `rfl`/`decide`. -/

/-- Hex digit value, for `\uXXXX` escapes. -/
def hexDigitVal (c : Char) : Option Nat :=
  let n := c.toNat
  if 47 < n && n < 58 then some (n - 48)
  else if 96 < n && n < 103 then some (n - 87)
  else if 64 < n && n < 71 then some (n - 55)
  else none

/-- A single-character JSON escape, decoded; `none` for invalid escapes. -/
def unescapeChar (esc : Char) : Option Char :=
  if esc = '"' || esc = '\\' || esc = '/' then some esc
  else if esc = 'b' then some (Char.ofNat 8)
  else if esc = 'f' then some (Char.ofNat 12)
  else if esc = 'n' then some (Char.ofNat 10)
  else if esc = 'r' then some (Char.ofNat 13)
  else if esc = 't' then some (Char.ofNat 9)
  else none

/-- Scan a JSON string body after the opening quote, accumulating decoded
characters in `out` (reversed). Unescaped control characters below U+0020
are rejected, as `JSON.parse` rejects them. -/
def scanStringBody : List Char → List Char → Option (String × List Char)
  | [], _ => none
  | '"' :: tl, out => some (String.mk out.reverse, tl)
  | '\\' :: esc :: tl, out =>
    if esc = 'u' then
      match tl with
      | h1 :: h2 :: h3 :: h4 :: tl2 =>
        match hexDigitVal h1, hexDigitVal h2, hexDigitVal h3, hexDigitVal h4 with
        | some a, some b, some c, some d =>
          scanStringBody tl2 (Char.ofNat (((a * 16 + b) * 16 + c) * 16 + d) :: out)
        | _, _, _, _ => none
      | _ => none
    else
      match unescapeChar esc with
      | some ch => scanStringBody tl (ch :: out)
      | none => none
  | c :: tl, out => if c.toNat < 32 then none else scanStringBody tl (c :: out)

/-- An optional exponent sign: returns whether it was negative, and the
remaining characters. -/
def splitExpSign : List Char → Bool × List Char
  | '+' :: tl => (false, tl)
  | '-' :: tl => (true, tl)
  | other => (false, other)

/-- Scan a JSON numeral: `-? (0 | [1-9][0-9]*) frac? exp?`, with the
leading-zero restriction `JSON.parse` enforces. -/
def scanNumber (cs : List Char) : Option (JsNumber × List Char) :=
  let (neg, afterSign) :=
    match cs with
    | '-' :: tl => (true, tl)
    | other => (false, other)
  match grabDigits afterSign with
  | ([], _) => none
  | (d0 :: drest, afterInt) =>
    if d0 = '0' && !drest.isEmpty then none
    else
      let fracScan : Option (List Char × List Char) :=
        match afterInt with
        | '.' :: body =>
          match grabDigits body with
          | ([], _) => none
          | (ds, tl) => some (ds, tl)
        | other => some ([], other)
      match fracScan with
      | none => none
      | some (fracDs, afterFrac) =>
        let expScan : Option (Int × List Char) :=
          match afterFrac with
          | e :: body =>
            if e = 'e' || e = 'E' then
              let (negExp, body2) := splitExpSign body
              match grabDigits body2 with
              | ([], _) => none
              | (eds, tl) =>
                some (if negExp then -(digitsVal eds : Int) else (digitsVal eds : Int), tl)
            else some (0, afterFrac)
          | [] => some (0, afterFrac)
        match expScan with
        | none => none
        | some (expVal, afterExp) =>
          let magnitude : Int := (digitsVal ((d0 :: drest) ++ fracDs) : Int)
          some (decimalToDoubleValue
                  { mant := if neg then -magnitude else magnitude,
                    exp10 := expVal - (fracDs.length : Int) }, afterExp)

/-- Parse the tail of a JSON array after its first element has not yet been
consumed; `pv` parses one value. Fuel-indexed, structurally recursive. -/
def arrayTail (pv : List Char → Option (JVal × List Char)) :
    Nat → List Char → Option (List JVal × List Char)
  | 0, _ => none
  | fuel + 1, cs =>
    match pv cs with
    | none => none
    | some (v, r) =>
      match dropWs r with
      | ',' :: r' =>
        match arrayTail pv fuel (dropWs r') with
        | some (vs, r'') => some (v :: vs, r'')
        | none => none
      | ']' :: r' => some ([v], r')
      | _ => none

/-- Parse the tail of a JSON object (one or more `"key": value` members). -/
def objectTail (pv : List Char → Option (JVal × List Char)) :
    Nat → List Char → Option (List (String × JVal) × List Char)
  | 0, _ => none
  | fuel + 1, cs =>
    match dropWs cs with
    | '"' :: afterQuote =>
      match scanStringBody afterQuote [] with
      | none => none
      | some (k, afterKey) =>
        match dropWs afterKey with
        | ':' :: afterColon =>
          match pv (dropWs afterColon) with
          | none => none
          | some (val, afterVal) =>
            match dropWs afterVal with
            | ',' :: afterComma =>
              match objectTail pv fuel (dropWs afterComma) with
              | some (ms, afterAll) => some ((k, val) :: ms, afterAll)
              | none => none
            | '}' :: afterBrace => some ([(k, val)], afterBrace)
            | _ => none
        | _ => none
    | _ => none

/-- Strip an expected keyword tail (used for the `null`/`true`/`false`
literals), returning the remaining characters on a match. -/
def stripKeyword : List Char → List Char → Option (List Char)
  | [], src => some src
  | k :: ks, c :: tl => if k = c then stripKeyword ks tl else none
  | _ :: _, [] => none

/-- Parse one JSON value (fuel-indexed; fuel bounds the nesting depth). -/
def parseValue : Nat → List Char → Option (JVal × List Char)
  | 0, _ => none
  | fuel + 1, input =>
    match dropWs input with
    | [] => none
    | c :: tl =>
      if c = 'n' then (stripKeyword "ull".toList tl).map fun r => (JVal.jnull, r)
      else if c = 't' then (stripKeyword "rue".toList tl).map fun r => (JVal.jbool true, r)
      else if c = 'f' then (stripKeyword "alse".toList tl).map fun r => (JVal.jbool false, r)
      else if c = '"' then
        (scanStringBody tl []).map fun sr => (JVal.jstr sr.1, sr.2)
      else if c = '[' then
        match dropWs tl with
        | ']' :: after => some (.jarr [], after)
        | inner => (arrayTail (parseValue fuel) fuel inner).map fun vr => (JVal.jarr vr.1, vr.2)
      else if c = '{' then
        match dropWs tl with
        | '}' :: after => some (.jobj [], after)
        | inner => (objectTail (parseValue fuel) fuel inner).map fun mr => (JVal.jobj mr.1, mr.2)
      else if c = '-' || digitChar c then
        (scanNumber (c :: tl)).map fun nr => (JVal.jnum nr.1, nr.2)
      else none

/-- `JSON.parse(s)`, returning `none` where `JSON.parse` throws. -/
def parseJson (s : String) : Option JVal :=
  match parseValue (s.toList.length + 1) s.toList with
  | some (v, rest) => if (dropWs rest).isEmpty then some v else none
  | none => none

/-! ### `Buffer.from(s, "base64").toString()`

Node's base64 decoder ignores characters outside the (standard or url-safe)
alphabet and `=` padding, and drops an incomplete trailing group of one
digit. The byte-to-text step is modelled on the ASCII fragment: bytes at or
above 0x80 map to the replacement character. All strings the claims exercise
are ASCII. -/

/-- Value of one base64 digit (standard and url-safe alphabets). -/
def b64DigitVal (c : Char) : Option Nat :=
  if c ≥ 'A' && c ≤ 'Z' then some (c.toNat - 65)
  else if c ≥ 'a' && c ≤ 'z' then some (c.toNat - 71)
  else if c ≥ '0' && c ≤ '9' then some (c.toNat + 4)
  else if c = '+' || c = '-' then some 62
  else if c = '/' || c = '_' then some 63
  else none

/-- Decode a stream of base64 digit values into bytes. -/
def b64Groups : List Nat → List Nat
  | w :: x :: y :: z :: tl =>
    (w * 4 + x / 16) :: ((x % 16) * 16 + y / 4) :: ((y % 4) * 64 + z) :: b64Groups tl
  | [w, x, y] => [w * 4 + x / 16, (x % 16) * 16 + y / 4]
  | [w, x] => [w * 4 + x / 16]
  | _ => []

/-- One byte rendered as text (ASCII fragment; see the section comment). -/
def byteToChar (b : Nat) : Char :=
  if b < 128 then Char.ofNat b else Char.ofNat 0xFFFD

/-- `Buffer.from(s, "base64").toString()`. -/
def b64DecodeToString (s : String) : String :=
  String.mk ((b64Groups (s.toList.filterMap b64DigitVal)).map byteToChar)

/-! ### Execution outcomes (`FinalExecutionOutcome` from `@near-js/types`)

A receipt's `outcome` wrapper is flattened into the two fields the engine
reads: its log lines and its terminal status. The status is modelled at the
granularity the sources test it: either it is an object carrying a
`SuccessValue` string, or it is anything else (a failure, a receipt id, a
non-object), in which case every `"SuccessValue" in status`-style guard in
the sources fails. -/

/-- `receipt.outcome.status` as the sources discriminate it. -/
inductive ExecutionStatus where
  | successValue (value : String)
  | otherStatus
deriving DecidableEq

/-- One element of `receipts_outcome` (its `outcome.logs` / `outcome.status`). -/
structure ReceiptOutcome where
  logs : List String
  status : ExecutionStatus

/-- The typed execution outcome: an ordered list of receipts. -/
structure FinalExecutionOutcome where
  receipts_outcome : List ReceiptOutcome

/-! ### `utils/proposals.ts` — event parsing and outcome classification -/

/-- The result of `parseEventJson`: the event name and the raw `data` field. -/
structure EventJson where
  event : String
  data : Option JVal

/-- `parseEventJson` (`utils/proposals.ts`, duplicated verbatim in `client.ts`):
strip the `EVENT_JSON:` marker, JSON-parse the payload, and require an object
with a string `event` field. -/
def parseEventJson (log : String) : Option EventJson :=
  if strBeginsWith log "EVENT_JSON:" then
    match parseJson (strDropChars log 11) with
    | some parsed =>
      match jmember parsed "event" with
      | some (.jstr e) => some { event := e, data := jmember parsed "data" }
      | _ => none
    | none => none
  else none

/-- `isProposalEvent`: the kernel's proposal lifecycle event names. -/
def isProposalEvent (value : String) : Bool :=
  value = "proposal_created" || value = "proposal_executed" || value = "proposal_cancelled"

/-- `/^\d+$/.test s`. -/
def digitOnly (s : String) : Bool :=
  !s.toList.isEmpty && s.toList.all digitChar

/-- `parseInt(s, 10)` on a digit-only string: the digit value as the double
`parseInt` returns, i.e. rounded to 53-bit precision above `2 ^ 53`. -/
def parseIntBase10 (s : String) : Nat :=
  roundNatToDoublePrecision (digitsVal s.toList)

/-- `extractProposalIdFromEvent`: read `data[0].proposal_id`, accepting a
finite number (the `Number.isFinite` guard rejects an `Infinity` produced
by an over-range numeral) or a digit-only string fed to `parseInt`. -/
def extractProposalIdFromEvent (ev : EventJson) : Option JsNumber :=
  if !isProposalEvent ev.event then none
  else match ev.data with
    | some (.jarr (first :: _)) =>
      match jmember first "proposal_id" with
      | some (.jnum n) => if isFiniteNumber n then some n else none
      | some (.jstr s) => if digitOnly s then some ⟨(parseIntBase10 s : Int), 0⟩ else none
      | _ => none
    | _ => none

/-- The proposal id yielded by one log line, if any. -/
def proposalIdFromLog (log : String) : Option JsNumber :=
  match parseEventJson log with
  | some ev => extractProposalIdFromEvent ev
  | none => none

/-- `extractProposalId` (`utils/proposals.ts` / `client.ts`): first id found
scanning receipts in order, else the missing-proposal-id error. -/
def extractProposalId (outcome : FinalExecutionOutcome) : Except String JsNumber :=
  match outcome.receipts_outcome.findSome? (fun r => r.logs.findSome? proposalIdFromLog) with
  | some pid => Except.ok pid
  | none => Except.error "Failed to extract proposal ID from kernel logs."

/-- One log line's contribution to `wasProposalExecuted`: a
`proposal_executed` event envelope, or the textual MPC-signature markers. -/
def logSignalsExecution (log : String) : Bool :=
  (match parseEventJson log with
   | some ev => ev.event = "proposal_executed"
   | none => false)
  || strIncludes log "\"big_r\"" || strIncludes log "\"signature\""

/-- One receipt status's contribution to `wasProposalExecuted`: a truthy
`SuccessValue` whose base64 decoding is non-empty, not `"null"`, not `'""'`,
and JSON-parses to a (non-null) object or array. -/
def statusSignalsExecution (status : ExecutionStatus) : Bool :=
  match status with
  | .otherStatus => false
  | .successValue s =>
    if s = "" then false
    else
      let decoded := b64DecodeToString s
      if decoded ≠ "" && decoded ≠ "null" && decoded ≠ "\"\"" then
        match parseJson decoded with
        | some v => jtruthy v && jtypeofObject v
        | none => false
      else false

/-- `wasProposalExecuted` on a typed outcome (the loop bodies of
`utils/proposals.ts` lines 31-60 and `client.ts` lines 1089-1120, which are
identical): any receipt whose logs or status signal execution. -/
def wasProposalExecuted (outcome : FinalExecutionOutcome) : Bool :=
  outcome.receipts_outcome.any fun r =>
    r.logs.any logSignalsExecution || statusSignalsExecution r.status

/-! ### `hasReceiptsOutcome` and the result-only responses (`utils/proposals.ts`) -/

/-- The `receipts_outcome` field of an untyped RPC response. When it is an
array the elements are assumed receipt-shaped, which is what the TS cast
`outcome is FinalExecutionOutcome` asserts. -/
inductive RawReceiptsField where
  | arrayValue (receipts : List ReceiptOutcome)
  | nonArrayValue

/-- An untyped RPC response as `hasReceiptsOutcome` discriminates it:
not an object at all, or an object whose `receipts_outcome` field is
absent or present. -/
inductive RawOutcome where
  | notAnObject
  | objectValue (receiptsOutcomeField : Option RawReceiptsField)

/-- `hasReceiptsOutcome`: the value is an object and its `receipts_outcome`
field is an array. -/
def hasReceiptsOutcome : RawOutcome → Bool
  | .objectValue (some (.arrayValue _)) => true
  | _ => false

/-- The guarded receipts list, when the guard passes. -/
def rawReceipts : RawOutcome → Option (List ReceiptOutcome)
  | .objectValue (some (.arrayValue rs)) => some rs
  | _ => none

/-- `wasProposalExecuted` at the public interface of `utils/proposals.ts`:
result-only responses short-circuit to `false` through `hasReceiptsOutcome`. -/
def wasProposalExecutedRaw (outcome : RawOutcome) : Bool :=
  match rawReceipts outcome with
  | some rs => wasProposalExecuted { receipts_outcome := rs }
  | none => false

/-! ### Signature shape predicates and the two `extractMPCSignatures` -/

/-- `typeof item === "number"` for array elements. -/
def isNumberJVal : JVal → Bool
  | .jnum _ => true
  | _ => false

/-- `isEd25519Signature` (`utils/proposals.ts`): a `signature` field that is
an all-number array, and a `scheme` string that lowercases to `ed25519`. -/
def isEd25519Signature (value : JVal) : Bool :=
  (match jmember value "signature" with
   | some (.jarr items) => items.all isNumberJVal
   | _ => false)
  && (match jmember value "scheme" with
      | some (.jstr s) => lowerAscii s = "ed25519"
      | _ => false)

/-- `isSecp256k1Signature` (`utils/proposals.ts`): the three fields are
present (not `undefined`), whatever their values. -/
def isSecp256k1Signature (value : JVal) : Bool :=
  (jmember value "big_r").isSome && (jmember value "s").isSome
    && (jmember value "recovery_id").isSome

/-- `pickEd25519Signature`: the first Ed25519-shaped entry, if any. -/
def pickEd25519Signature (signatures : List JVal) : Option JVal :=
  signatures.find? isEd25519Signature

/-- The textual relevance guard of the `utils/proposals.ts` extractor's log
scan (the `log.includes(...)` disjunction). -/
def sigLogLooksRelevant (log : String) : Bool :=
  strIncludes log "\"big_r\"" || strIncludes log "big_r" || strIncludes log "\"Ed25519\""
    || strIncludes log "\"ed25519\"" || strIncludes log "\"signature\""

/-- `collectSignature`: what one candidate value contributes (zero or one
pushed signatures). -/
def collectSignature (value : JVal) : Option JVal :=
  if isEd25519Signature value || isSecp256k1Signature value then some value else none

/-- One log line's contribution to the `utils/proposals.ts` extractor. -/
def signatureFromLog (log : String) : Option JVal :=
  if sigLogLooksRelevant log then
    match parseJson log with
    | some parsed => collectSignature parsed
    | none => none
  else none

/-- One receipt status's contribution to the `utils/proposals.ts` extractor:
decode and parse the `SuccessValue`, handling both a single signature and an
array of them. -/
def signaturesFromStatus (status : ExecutionStatus) : List JVal :=
  match status with
  | .otherStatus => []
  | .successValue s =>
    match parseJson (b64DecodeToString s) with
    | some (.jarr items) => items.filterMap collectSignature
    | some v => (collectSignature v).toList
    | none => []

/-- `extractMPCSignatures` (`utils/proposals.ts` lines 189-241): scan every
receipt's logs and return value, in order. -/
def extractMPCSignatures (result : FinalExecutionOutcome) : List JVal :=
  result.receipts_outcome.flatMap fun r =>
    r.logs.filterMap signatureFromLog ++ signaturesFromStatus r.status

/-- The Secp256k1 shape test of the `client.ts` extractor: a truthy `big_r`
and present `s` and `recovery_id`. On `null` the property access throws and
the surrounding `catch` swallows it, which this `false` also models. -/
def clientSecpShape (value : JVal) : Bool :=
  (match jmember value "big_r" with
   | some w => jtruthy w
   | none => false)
  && (jmember value "s").isSome && (jmember value "recovery_id").isSome

/-- One log line's contribution to the `client.ts` extractor (its guard only
looks for `big_r`, and only Secp256k1-shaped values are pushed). -/
def clientSigFromLog (log : String) : Option JVal :=
  if strIncludes log "\"big_r\"" || strIncludes log "big_r" then
    match parseJson log with
    | some parsed => if clientSecpShape parsed then some parsed else none
    | none => none
  else none

/-- The `client.ts` extractor's walk over a decoded `SuccessValue` array: a
`null` element makes `sig.big_r` throw, and the `catch` drops the rest of
the array while keeping the signatures already pushed. -/
def clientSigsFromArray : List JVal → List JVal
  | [] => []
  | .jnull :: _ => []
  | v :: rest => (if clientSecpShape v then [v] else []) ++ clientSigsFromArray rest

/-- One receipt status's contribution to the `client.ts` extractor. -/
def clientSigsFromStatus (status : ExecutionStatus) : List JVal :=
  match status with
  | .otherStatus => []
  | .successValue s =>
    match parseJson (b64DecodeToString s) with
    | some (.jarr items) => clientSigsFromArray items
    | some v => if clientSecpShape v then [v] else []
    | none => []

/-- `extractMPCSignatures` as defined locally in `client.ts` (lines
1202-1250) and invoked by `proposeChainSigTransaction` / `voteOnProposal`. -/
def clientExtractMPCSignatures (result : FinalExecutionOutcome) : List JVal :=
  result.receipts_outcome.flatMap fun r =>
    r.logs.filterMap clientSigFromLog ++ clientSigsFromStatus r.status

/-! ### The proposal lifecycle orchestrator (`client.ts`)

Each proposal method is embedded as a pure function of the submission
outcome the kernel call produced and of a `getProposal` oracle standing for
the `get_proposal` view query (the chain state at the moment the method would
issue the view). The kernel call itself and its transport are effects whose
result is the `outcome` argument. -/

/-- An on-chain proposal snapshot as returned by the `get_proposal` view.
Its fields are opaque to every claim here, so only a raw payload is kept. -/
structure Proposal where
  raw : JVal

/-- `ChainSigTransactionProposalResult` (`types.ts` lines 539-546): the
pending variant carries the proposal id and the raw outcome; the executed
variant additionally carries the extracted signatures. Neither variant has
a proposal-snapshot field. -/
inductive ChainSigTransactionProposalResult where
  | pendingR (proposalId : JsNumber) (outcome : FinalExecutionOutcome)
  | executedR (proposalId : JsNumber) (signatures : List JVal) (outcome : FinalExecutionOutcome)

/-- The `executed` discriminant of the result union. -/
def ChainSigTransactionProposalResult.executedFlag : ChainSigTransactionProposalResult → Bool
  | .pendingR _ _ => false
  | .executedR _ _ _ => true

/-- The `proposalId` field of the result union. -/
def ChainSigTransactionProposalResult.proposalIdOf : ChainSigTransactionProposalResult → JsNumber
  | .pendingR pid _ => pid
  | .executedR pid _ _ => pid

/-- The proposal snapshot carried by a `ChainSigTransactionProposalResult`:
the TS union has no `proposal` field in either variant, so this is `none`
on both. -/
def ChainSigTransactionProposalResult.proposalSnapshot :
    ChainSigTransactionProposalResult → Option Proposal
  | .pendingR _ _ => none
  | .executedR _ _ _ => none

/-- `proposeChainSigTransaction` (`client.ts` lines 504-531), from the
submission outcome on: classify, extract the id, and return the tagged
result. The `getProposal` oracle is available to the client but this method
never consults it. -/
def proposeChainSigTransaction (getProposal : JsNumber → Option Proposal)
    (outcome : FinalExecutionOutcome) : Except String ChainSigTransactionProposalResult :=
  let _ := getProposal
  let executed := wasProposalExecuted outcome
  match extractProposalId outcome with
  | .error e => .error e
  | .ok proposalId =>
    if executed then
      .ok (.executedR proposalId (clientExtractMPCSignatures outcome) outcome)
    else .ok (.pendingR proposalId outcome)

/-- `NearProposalResult` (`types.ts` lines 555-557): both variants carry only
the proposal id and the raw outcome. -/
inductive NearProposalResult where
  | pendingR (proposalId : JsNumber) (outcome : FinalExecutionOutcome)
  | executedR (proposalId : JsNumber) (outcome : FinalExecutionOutcome)

/-- The proposal snapshot carried by a `NearProposalResult`: the TS union has
no `proposal` field in either variant. -/
def NearProposalResult.proposalSnapshot : NearProposalResult → Option Proposal
  | .pendingR _ _ => none
  | .executedR _ _ => none

/-- `proposeNearActions` (`client.ts` lines 464-502), from the submission
outcome on (the transaction build preceding the kernel call does not affect
the returned variant). It never consults the `getProposal` oracle. -/
def proposeNearActions (getProposal : JsNumber → Option Proposal)
    (outcome : FinalExecutionOutcome) : Except String NearProposalResult :=
  let _ := getProposal
  let executed := wasProposalExecuted outcome
  match extractProposalId outcome with
  | .error e => .error e
  | .ok proposalId =>
    if executed then .ok (.executedR proposalId outcome)
    else .ok (.pendingR proposalId outcome)

/-- `KernelCoreProposalResult` (`types.ts` lines 560-562). -/
inductive KernelCoreProposalResult where
  | pendingR (proposalId : JsNumber) (proposal : Proposal)
  | executedR (proposalId : JsNumber)

/-- `proposeExecutionKernelCoreFunction` (`client.ts` lines 442-462): on a
pending classification the current proposal snapshot is fetched and
returned; a missing proposal is a thrown error. -/
def proposeExecutionKernelCoreFunction (getProposal : JsNumber → Option Proposal)
    (outcome : FinalExecutionOutcome) : Except String KernelCoreProposalResult :=
  let executed := wasProposalExecuted outcome
  match extractProposalId outcome with
  | .error e => .error e
  | .ok proposalId =>
    if executed then .ok (.executedR proposalId)
    else
      match getProposal proposalId with
      | none => .error "Proposal not found after creation."
      | some proposal => .ok (.pendingR proposalId proposal)

/-- `VoteProposalResult` (`types.ts` lines 565-567). -/
inductive VoteProposalResult where
  | pendingR (proposalId : JsNumber) (proposal : Proposal)
  | executedR (proposalId : JsNumber) (signatures : Option (List JVal))

/-- `voteOnProposal` (`client.ts` lines 533-558), from the vote transaction's
outcome on: executed results carry signatures when any were extracted;
pending results carry the freshly fetched snapshot. -/
def voteOnProposal (getProposal : JsNumber → Option Proposal) (proposalId : JsNumber)
    (outcome : FinalExecutionOutcome) : Except String VoteProposalResult :=
  let executed := wasProposalExecuted outcome
  if executed then
    let signatures := clientExtractMPCSignatures outcome
    if signatures.length ≠ 0 then .ok (.executedR proposalId (some signatures))
    else .ok (.executedR proposalId none)
  else
    match getProposal proposalId with
    | none => .error "Proposal not found after vote."
    | some proposal => .ok (.pendingR proposalId proposal)

/-! ### The intents swap pipeline (`utils/intents.ts`) -/

/-- `isChainSigResponse` (`utils/intents.ts` lines 618-639): a `scheme`
discriminator of `Ed25519` with an array `signature`, or `Secp256k1` with
string `big_r.affine_point` and `s.scalar` and a numeric `recovery_id`. -/
def isChainSigResponse (value : JVal) : Bool :=
  match jmember value "scheme" with
  | some (.jstr "Ed25519") =>
    match jmember value "signature" with
    | some (.jarr _) => true
    | _ => false
  | some (.jstr "Secp256k1") =>
    (match jmember value "big_r" with
     | some br =>
       match jmember br "affine_point" with
       | some (.jstr _) => true
       | _ => false
     | none => false)
    && (match jmember value "s" with
        | some sv =>
          match jmember sv "scalar" with
          | some (.jstr _) => true
          | _ => false
        | none => false)
    && (match jmember value "recovery_id" with
        | some (.jnum _) => true
        | _ => false)
  | _ => false

/-- `collectChainSigResponses`: recurse into arrays, keep matching values. -/
def collectChainSigResponses (value : JVal) : List JVal :=
  match value with
  | .jarr items => items.attach.flatMap fun ⟨item, _⟩ => collectChainSigResponses item
  | v => if isChainSigResponse v then [v] else []

/-- One log line's contribution to `extractChainSigResponses`. -/
def chainSigResponsesFromLog (log : String) : List JVal :=
  match parseJson log with
  | some parsed => collectChainSigResponses parsed
  | none => []

/-- One receipt status's contribution to `extractChainSigResponses`: the
`SuccessValue` string is decoded, and a non-empty decoding is parsed. -/
def chainSigResponsesFromStatus (status : ExecutionStatus) : List JVal :=
  match status with
  | .otherStatus => []
  | .successValue s =>
    let decoded := b64DecodeToString s
    if decoded = "" then []
    else
      match parseJson decoded with
      | some parsed => collectChainSigResponses parsed
      | none => []

/-- `extractChainSigResponses` (`utils/intents.ts` lines 653-681). -/
def extractChainSigResponses (outcome : FinalExecutionOutcome) : List JVal :=
  outcome.receipts_outcome.flatMap fun r =>
    r.logs.flatMap chainSigResponsesFromLog ++ chainSigResponsesFromStatus r.status

/-- The `response.scheme === "Ed25519"` test of `extractEd25519Signature`. -/
def respSchemeIsEd25519 (r : JVal) : Bool :=
  match jmember r "scheme" with
  | some (.jstr s) => s = "Ed25519"
  | _ => false

/-- `extractEd25519Signature` (`utils/intents.ts` lines 683-690): return the
`signature` field of the first Ed25519-schemed response; `none` models both
the `null` fall-through and an `undefined` field. -/
def extractEd25519Signature (responses : List JVal) : Option JVal :=
  match responses.find? respSchemeIsEd25519 with
  | some r => jmember r "signature"
  | none => none

/-- The data of the swap's quote that the publish step consumes. The other
quote fields (assets, amounts, deadline) do not reach `publish_intent`'s
`quote_hashes`. -/
structure IntentsSwapQuote where
  quote_hash : String

/-- The solver `publish_intent` request as the swap flow assembles it: the
quote hashes and the extracted signature payload (its base58 rendering is
injective in the bytes and not modelled further). -/
structure PublishIntentsCall where
  quoteHashes : List String
  signatureItems : JVal

/-- `swapViaIntents` (`utils/intents.ts` lines 983-1003) from the proposal
submission outcome on: extract responses, demand an Ed25519 signature, then
publish with the quote's hash as the single quote hash. `publishIntent` is
the solver endpoint oracle; its result is the intent hash. -/
def swapViaIntentsAfterProposal (publishIntent : PublishIntentsCall → Except String String)
    (quote : IntentsSwapQuote) (outcome : FinalExecutionOutcome) :
    Except String (String × PublishIntentsCall) :=
  let signatureBytes := extractEd25519Signature (extractChainSigResponses outcome)
  match signatureBytes with
  | none => .error "No Ed25519 signature returned; proposal may require voting."
  | some sig =>
    if jtruthy sig then
      let call : PublishIntentsCall := { quoteHashes := [quote.quote_hash], signatureItems := sig }
      match publishIntent call with
      | .ok intentHash => .ok (intentHash, call)
      | .error e => .error e
    else .error "No Ed25519 signature returned; proposal may require voting."

/-! ### The transaction builder (`client.ts` `buildNearTransaction` and
`resolveNearTransactionSigner`)

Network lookups (access keys, derived accounts, the block reference) are
oracles in a `NearRpcEnv`; actions are opaque payloads threaded through. The
borsh byte encoding of the built transaction is outside these claims. -/

/-- Opaque NEAR actions, only passed to the access-key lookup. -/
def NearAction := String

/-- An access key as the nonce-bearing lookup result. -/
structure AccessKey where
  nonce : Nat

/-- A connected wallet: its account id and its `findAccessKey` resolver. -/
structure NearWallet where
  accountId : String
  findAccessKey : String → List NearAction → String × AccessKey

/-- `derive_address_and_public_key` view result. -/
structure DerivedAccount where
  public_key : String
  address : String

/-- The NEAR network selector of a ChainSig signer. -/
inductive NearNetwork where
  | mainnet
  | testnet
deriving DecidableEq

/-- `NearTransactionSigner` (`types.ts` lines 241-256). -/
inductive NearTransactionSigner where
  | account (nearWallet : Option NearWallet)
  | chainSig (derivationPath : String) (nearNetwork : Option NearNetwork)
  | explicitSigner (signerId : String) (publicKey : String) (nonce : Nat)

/-- The client's view of the chain for building transactions. -/
structure NearRpcEnv where
  defaultWallet : Option NearWallet
  deriveAddressAndPublicKey : String → NearNetwork → DerivedAccount
  viewAccessKey : String → String → AccessKey
  blockHash : List Nat

/-- The signer triple `resolveNearTransactionSigner` produces. -/
structure ResolvedSigner where
  signerId : String
  publicKey : String
  nonce : Nat
deriving DecidableEq

/-- `resolveNearTransactionSigner` (`client.ts` lines 990-1038): access-key
lookup for the wallet and ChainSig variants, caller-trusted values for the
explicit variant. -/
def resolveNearTransactionSigner (env : NearRpcEnv) (signer : NearTransactionSigner)
    (receiverId : String) (actions : List NearAction) : Except String ResolvedSigner :=
  match signer with
  | .account w =>
    match w.orElse fun _ => env.defaultWallet with
    | none => .error "No NEAR account connected."
    | some wallet =>
      let (publicKey, accessKey) := wallet.findAccessKey receiverId actions
      .ok ⟨wallet.accountId, publicKey, accessKey.nonce⟩
  | .chainSig path net =>
    let derived := env.deriveAddressAndPublicKey path (net.getD .mainnet)
    let accessKey := env.viewAccessKey derived.address derived.public_key
    .ok ⟨derived.address, derived.public_key, accessKey.nonce⟩
  | .explicitSigner signerId publicKey nonce => .ok ⟨signerId, publicKey, nonce⟩

/-- The unsigned transaction `createTransaction` assembles. -/
structure UnsignedTransaction where
  signerId : String
  publicKey : String
  receiverId : String
  nonce : Nat
  actions : List NearAction
  blockHash : List Nat

/-- `buildNearTransaction`'s result fields relevant to the claims. -/
structure NearTransactionBuildResult where
  transaction : UnsignedTransaction
  signerId : String
  publicKey : String
  nonce : Nat

/-- `buildNearTransaction` (`client.ts` lines 290-323): resolve the signer,
then construct the unsigned transaction with `nonce + 1`. -/
def buildNearTransaction (env : NearRpcEnv) (receiverId : String) (actions : List NearAction)
    (signer : NearTransactionSigner) : Except String NearTransactionBuildResult :=
  match resolveNearTransactionSigner env signer receiverId actions with
  | .ok rs =>
    .ok { transaction :=
            { signerId := rs.signerId, publicKey := rs.publicKey, receiverId := receiverId,
              nonce := rs.nonce + 1, actions := actions, blockHash := env.blockHash },
          signerId := rs.signerId, publicKey := rs.publicKey, nonce := rs.nonce }
  | .error msg => .error msg

/-! ### The bounded-retry wrapper (`utils/retry.ts`)

`fn` is modelled as a map from the attempt index to that invocation's
result; the run returns the final result together with the number of
invocations made and the list of sleep durations taken, in order. -/

/-- One run of `retry`'s recursion, starting at attempt index `attempt` with
`times` retries remaining. -/
def retryRun {ε α : Type} (fn : Nat → Except ε α) (interval : Nat) :
    Nat → Nat → Except ε α × Nat × List Nat
  | attempt, times =>
    match fn attempt with
    | .ok v => (.ok v, 1, [])
    | .error e =>
      match times with
      | 0 => (.error e, 1, [])
      | t + 1 =>
        let (res, calls, sleeps) := retryRun fn interval (attempt + 1) t
        (res, calls + 1, interval :: sleeps)

/-- `retry(fn, { times, interval })` (`utils/retry.ts` lines 3-14). -/
def retry {ε α : Type} (fn : Nat → Except ε α) (times interval : Nat) :
    Except ε α × Nat × List Nat :=
  retryRun fn interval 0 times

/-! ### `normalizeChainSigEncodedTx` and `isLikelyHex` (`client.ts`) -/

/-- `ChainSigEncoding` (`types.ts`). -/
inductive ChainSigEncoding where
  | hex
  | base64
deriving DecidableEq

/-- `string | Uint8Array` transaction payloads. -/
inductive EncodedTxInput where
  | strPayload (s : String)
  | bytesPayload (bytes : List Nat)

/-- One lower-case hex digit. -/
def hexDigitChar (n : Nat) : Char :=
  Char.ofNat (if n < 10 then n + 48 else n + 87)

/-- `Buffer.prototype.toString("hex")`. -/
def bytesToHex (bs : List Nat) : String :=
  String.mk (bs.flatMap fun b => [hexDigitChar (b / 16 % 16), hexDigitChar (b % 16)])

/-- One standard base64 alphabet character. -/
def b64Alphabet (n : Nat) : Char :=
  if n < 26 then Char.ofNat (65 + n)
  else if n < 52 then Char.ofNat (71 + n)
  else if n < 62 then Char.ofNat (n - 4)
  else if n = 62 then '+' else '/'

/-- Standard base64 encoding of a byte list, with padding. -/
def b64EncodeGroups : List Nat → List Char
  | a :: b :: c :: rest =>
    b64Alphabet (a / 4) :: b64Alphabet ((a % 4) * 16 + b / 16)
      :: b64Alphabet ((b % 16) * 4 + c / 64) :: b64Alphabet (c % 64) :: b64EncodeGroups rest
  | [a, b] => [b64Alphabet (a / 4), b64Alphabet ((a % 4) * 16 + b / 16), b64Alphabet ((b % 16) * 4), '=']
  | [a] => [b64Alphabet (a / 4), b64Alphabet ((a % 4) * 16), '=', '=']
  | [] => []

/-- `Buffer.prototype.toString("base64")`. -/
def bytesToBase64 (bs : List Nat) : String :=
  String.mk (b64EncodeGroups bs)

/-- A hexadecimal character (`[0-9a-fA-F]`). -/
def hexCharTest (c : Char) : Bool :=
  digitChar c || (c ≥ 'a' && c ≤ 'f') || (c ≥ 'A' && c ≤ 'F')

/-- `isLikelyHex` (`client.ts` lines 1079-1081): non-empty, hex-only, and of
even length. -/
def isLikelyHex (value : String) : Bool :=
  !value.toList.isEmpty && value.toList.all hexCharTest && value.toList.length % 2 = 0

/-- `normalizeChainSigEncodedTx` (`client.ts` lines 1045-1077). -/
def normalizeChainSigEncodedTx (encodedTx : EncodedTxInput)
    (encoding : Option ChainSigEncoding) : String :=
  match encodedTx with
  | .bytesPayload bytes =>
    match encoding with
    | some .base64 => bytesToBase64 bytes
    | _ => "0x" ++ bytesToHex bytes
  | .strPayload s =>
    match encoding with
    | some .base64 => s
    | some .hex => if strBeginsWith s "0x" then s else "0x" ++ s
    | none =>
      if strBeginsWith s "0x" then s
      else if isLikelyHex s then "0x" ++ s
      else s

/-! ### Spec-side predicates used by individual claims -/

/-- The claimed pending-state status condition: the receipt's success value
is empty, `null`, or absent. -/
def successValueEmptyNullOrAbsent (status : ExecutionStatus) : Bool :=
  match status with
  | .otherStatus => true
  | .successValue s => s = "" || b64DecodeToString s = "" || b64DecodeToString s = "null"

/-! ### Concrete fixtures for witnesses and counterexamples -/

/-- An Ed25519-shaped signature log line. -/
def edLine : String := "\x7b\"scheme\":\"Ed25519\",\"signature\":[1,2,3]\x7d"

/-- The value `edLine` parses to. -/
def edVal : JVal :=
  .jobj [("scheme", .jstr "Ed25519"),
         ("signature", .jarr [.jnum ⟨1, 0⟩, .jnum ⟨2, 0⟩, .jnum ⟨3, 0⟩])]

/-- A Secp256k1-shaped signature log line (the `utils/proposals.ts` shape). -/
def secpLine : String := "\x7b\"big_r\":\"r1\",\"s\":\"s1\",\"recovery_id\":0\x7d"

/-- The value `secpLine` parses to. -/
def secpVal : JVal :=
  .jobj [("big_r", .jstr "r1"), ("s", .jstr "s1"), ("recovery_id", .jnum ⟨0, 0⟩)]

/-- A JSON log line that matches neither signature shape (but passes the
textual relevance guard). -/
def noiseLine : String := "\x7b\"signature\":\"x\"\x7d"

/-- The value `noiseLine` parses to. -/
def noiseVal : JVal := .jobj [("signature", .jstr "x")]

/-- A `proposal_created` event log carrying proposal id 7. -/
def evLog7 : String := "EVENT_JSON:\x7b\"event\":\"proposal_created\",\"data\":[\x7b\"proposal_id\":7\x7d]\x7d"

/-- A creation event log carrying proposal id `2 ^ 53 + 1` as a JSON number. -/
def evLogBigNum : String :=
  "EVENT_JSON:\x7b\"event\":\"proposal_created\",\"data\":[\x7b\"proposal_id\":9007199254740993\x7d]\x7d"

/-- The same double-unsafe proposal id encoded as a digit-only string. -/
def evLogBigStr : String :=
  "EVENT_JSON:\x7b\"event\":\"proposal_created\",\"data\":[\x7b\"proposal_id\":\"9007199254740993\"\x7d]\x7d"

/-- An outcome that only creates proposal 7: one receipt, the creation event
log, no success value. -/
def pendingOutcome7 : FinalExecutionOutcome :=
  { receipts_outcome := [{ logs := [evLog7], status := .otherStatus }] }

/-- A proposal snapshot fixture. -/
def proposalFixture : Proposal := { raw := .jobj [("id", .jnum ⟨7, 0⟩)] }

/-- A view oracle that knows `proposalFixture` for every id. -/
def getProposalFixture : JsNumber → Option Proposal := fun _ => some proposalFixture

/-- An intents ChainSig execution outcome: one receipt logging an Ed25519
chain-signature response. -/
def intentsExecutedOutcome : FinalExecutionOutcome :=
  { receipts_outcome := [{ logs := [edLine], status := .otherStatus }] }

/-- A wallet fixture for the builder claims. -/
def walletFixture : NearWallet :=
  { accountId := "alice.near",
    findAccessKey := fun _ _ => ("ed25519:PKA", { nonce := 5 }) }

/-- An RPC environment fixture for the builder claims. -/
def envFixture : NearRpcEnv :=
  { defaultWallet := none,
    deriveAddressAndPublicKey := fun _ _ => { public_key := "ed25519:PKD", address := "derived.near" },
    viewAccessKey := fun _ _ => { nonce := 9 },
    blockHash := [1, 2, 3] }

/-! ## Shared lemmas -/

/-- Scanning receipts in order for the first log hit equals scanning the
flattened log list. -/
theorem findSome?_over_receipts {β : Type} (rs : List ReceiptOutcome) (f : String → Option β) :
    rs.findSome? (fun r => r.logs.findSome? f)
      = (rs.flatMap ReceiptOutcome.logs).findSome? f := by
  induction rs with
  | nil => rfl
  | cons r rest ih =>
    rw [List.flatMap_cons, List.findSome?_append, ← ih]
    cases h : r.logs.findSome? f <;> simp [List.findSome?_cons, h]

/-- When no receipt status contributes signatures, the `utils/proposals.ts`
extractor is the filter of the flattened log list. -/
theorem extractMPCSignatures_of_quiet_statuses (rs : List ReceiptOutcome)
    (h : ∀ r ∈ rs, signaturesFromStatus r.status = []) :
    extractMPCSignatures { receipts_outcome := rs }
      = (rs.flatMap ReceiptOutcome.logs).filterMap signatureFromLog := by
  induction rs with
  | nil => rfl
  | cons r rest ih =>
    rw [extractMPCSignatures] at *
    simp only [List.flatMap_cons, List.filterMap_append]
    rw [h r (by simp), ih fun r' hr' => h r' (by simp [hr'])]
    simp

/-- A log line whose JSON parse matches neither signature shape contributes
nothing to the `utils/proposals.ts` extractor. -/
theorem signatureFromLog_eq_none_of_non_matching (log : String)
    (h : ∀ v, parseJson log = some v →
      isEd25519Signature v = false ∧ isSecp256k1Signature v = false) :
    signatureFromLog log = none := by
  rw [signatureFromLog]
  split
  · cases hp : parseJson log with
    | none => rfl
    | some v =>
      have := h v hp
      simp [collectSignature, this.1, this.2]
  · rfl

/-! ## Claim theorems -/

/-- **C9.** The outcome classifier is total at the public interface: for
every RPC response value that is not an object, or whose `receipts_outcome`
field is absent or not an array, `wasProposalExecuted` in the proposals
utility module returns `false` through the `hasReceiptsOutcome` guard
rather than throwing. -/
theorem wasProposalExecutedRaw_total_on_result_only (o : RawOutcome)
    (h : hasReceiptsOutcome o = false) : wasProposalExecutedRaw o = false := by
  cases o with
  | notAnObject => rfl
  | objectValue f =>
    match f with
    | none => rfl
    | some .nonArrayValue => rfl
    | some (.arrayValue rs) => exact absurd h (by simp [hasReceiptsOutcome])

/-- Witness for C9: a result-only (non-object) response fails the guard and
classifies as `false`. -/
theorem wasProposalExecutedRaw_total_on_result_only_witness :
    hasReceiptsOutcome .notAnObject = false ∧ wasProposalExecutedRaw .notAnObject = false :=
  ⟨rfl, wasProposalExecutedRaw_total_on_result_only .notAnObject rfl⟩

/-- **C3 counterexample.** A receipt whose success value decodes to the JSON
number `42` — non-empty, not `null`, JSON-decodable — is classified as NOT
executed, because the classifier additionally requires the parsed value to
be an object or array. -/
theorem wasProposalExecuted_numeric_return_counterexample :
    b64DecodeToString "NDI=" = "42"
      ∧ parseJson "42" = some (.jnum ⟨42, 0⟩)
      ∧ wasProposalExecuted
          { receipts_outcome := [{ logs := [], status := .successValue "NDI=" }] } = false :=
  ⟨rfl, rfl, rfl⟩

/-- **C3 (amended).** For every outcome containing a receipt whose terminal
status carries a non-empty success value that decodes to something other
than `""`, `"null"`, `'""'` and JSON-parses to a non-null object or array,
the classifier returns true; JSON numbers, strings and booleans do not
qualify. -/
theorem wasProposalExecuted_true_of_object_return (o : FinalExecutionOutcome)
    (r : ReceiptOutcome) (s : String) (v : JVal)
    (hr : r ∈ o.receipts_outcome) (hs : r.status = .successValue s) (hne : s ≠ "")
    (hd1 : b64DecodeToString s ≠ "") (hd2 : b64DecodeToString s ≠ "null")
    (hd3 : b64DecodeToString s ≠ "\"\"")
    (hp : parseJson (b64DecodeToString s) = some v)
    (hshape : jtypeofObject v = true) (hnn : v ≠ .jnull) :
    wasProposalExecuted o = true := by
  have htr : jtruthy v = true := by
    cases v <;> simp_all [jtypeofObject, jtruthy]
  have hsig : statusSignalsExecution r.status = true := by
    rw [hs, statusSignalsExecution]
    simp [hne, hd1, hd2, hd3, hp, htr, hshape]
  rw [wasProposalExecuted, List.any_eq_true]
  exact ⟨r, hr, by simp [hsig]⟩

/-- Witness for the amended C3: a success value decoding to `{"a":1}`
classifies as executed. -/
theorem wasProposalExecuted_true_of_object_return_witness :
    wasProposalExecuted
        { receipts_outcome := [{ logs := [], status := .successValue "eyJhIjoxfQ==" }] } = true := by
  apply wasProposalExecuted_true_of_object_return _
    { logs := [], status := .successValue "eyJhIjoxfQ==" }
    "eyJhIjoxfQ==" (.jobj [("a", .jnum ⟨1, 0⟩)])
  · simp
  · rfl
  · decide
  · decide
  · decide
  · decide
  · rfl
  · rfl
  · nofun

/-- **C4 counterexample.** An outcome in which every receipt's success value
is absent still classifies as executed when a log line contains the
`"signature"` marker: the log rules fire independently of the statuses. -/
theorem wasProposalExecuted_marker_log_counterexample :
    ((({ receipts_outcome := [{ logs := ["\x7b\"signature\":1\x7d"], status := .otherStatus }] } :
        FinalExecutionOutcome).receipts_outcome.all
          fun r => successValueEmptyNullOrAbsent r.status) = true)
      ∧ wasProposalExecuted
          { receipts_outcome := [{ logs := ["\x7b\"signature\":1\x7d"], status := .otherStatus }] }
          = true :=
  ⟨rfl, rfl⟩

/-- **C4 (amended).** For every outcome in which every receipt's success
value is empty, `null` or absent AND no log line is a `proposal_executed`
event or contains the `"big_r"`/`"signature"` markers, the classifier
returns false. -/
theorem wasProposalExecuted_false_of_quiet_logs_and_empty_status (o : FinalExecutionOutcome)
    (hlogs : ∀ r ∈ o.receipts_outcome, ∀ l ∈ r.logs, logSignalsExecution l = false)
    (hstat : ∀ r ∈ o.receipts_outcome, successValueEmptyNullOrAbsent r.status = true) :
    wasProposalExecuted o = false := by
  rw [wasProposalExecuted, List.any_eq_false]
  intro r hr
  have h1 : r.logs.any logSignalsExecution = false := by
    rw [List.any_eq_false]
    intro l hl
    simp [hlogs r hr l hl]
  have h2 : statusSignalsExecution r.status = false := by
    cases hst : r.status with
    | otherStatus => rfl
    | successValue s =>
      have hse := hstat r hr
      rw [hst] at hse
      simp only [successValueEmptyNullOrAbsent, Bool.or_eq_true, decide_eq_true_eq] at hse
      rcases hse with (h | h) | h
      · simp [statusSignalsExecution, h]
      · by_cases hs0 : s = "" <;> simp [statusSignalsExecution, hs0, h]
      · by_cases hs0 : s = "" <;> simp [statusSignalsExecution, hs0, h]
  simp [h1, h2]

/-- Witness for the amended C4: a creation-only outcome (event log, empty
status) classifies as pending. -/
theorem wasProposalExecuted_false_of_quiet_logs_and_empty_status_witness :
    wasProposalExecuted pendingOutcome7 = false :=
  wasProposalExecuted_false_of_quiet_logs_and_empty_status pendingOutcome7
    (by intro r hr l hl
        simp [pendingOutcome7] at hr
        subst hr
        simp at hl
        subst hl
        rfl)
    (by intro r hr
        simp [pendingOutcome7] at hr
        subst hr
        rfl)

/-- **C5 counterexample.** At `N = 2 ^ 53 + 1 = 9007199254740993`, the
double that `JSON.parse` (number encoding) and `parseInt` (digit-string
encoding) produce rounds to `9007199254740992`, so `extractProposalId`
returns that neighbouring integer rather than exactly `N`. -/
theorem extractProposalId_unsafe_integer_counterexample :
    extractProposalId
        { receipts_outcome := [{ logs := [evLogBigNum], status := .otherStatus }] }
      = .ok ⟨9007199254740992, 0⟩
    ∧ extractProposalId
        { receipts_outcome := [{ logs := [evLogBigStr], status := .otherStatus }] }
      = .ok ⟨9007199254740992, 0⟩
    ∧ (⟨9007199254740992, 0⟩ : JsNumber) ≠ ⟨9007199254740993, 0⟩ :=
  ⟨rfl, rfl, by decide⟩

/-- **C5 (amended).** `extractProposalId` is the identity projection on the
proposal id of the unique structured event log for every `N` in the
double-exact range `N ≤ 2 ^ 53` — whether the id is encoded as a JSON
number or as a digit-only string (above that range the id rounds to double
precision; see the counterexample) — and it throws the missing-proposal-id
error on every outcome whose receipt logs yield no id. -/
theorem extractProposalId_spec :
    (∀ (rs : List ReceiptOutcome) (pre post : List String) (L : String)
       (ev : EventJson) (first : JVal) (rest : List JVal) (N : Nat),
       N ≤ 2 ^ 53 →
       rs.flatMap ReceiptOutcome.logs = pre ++ L :: post →
       (∀ l ∈ pre, parseEventJson l = none) →
       (∀ l ∈ post, parseEventJson l = none) →
       parseEventJson L = some ev →
       isProposalEvent ev.event = true →
       ev.data = some (.jarr (first :: rest)) →
       (jmember first "proposal_id" = some (.jnum ⟨(N : Int), 0⟩)
         ∨ ∃ ds, jmember first "proposal_id" = some (.jstr ds)
             ∧ digitOnly ds = true ∧ digitsVal ds.toList = N) →
       extractProposalId { receipts_outcome := rs } = .ok ⟨(N : Int), 0⟩)
    ∧ (∀ o : FinalExecutionOutcome,
       (∀ r ∈ o.receipts_outcome, ∀ l ∈ r.logs, proposalIdFromLog l = none) →
       extractProposalId o = .error "Failed to extract proposal ID from kernel logs.") := by
  constructor
  · intro rs pre post L ev first rest N hN hflat hpre hpost hL hev hdata hid
    have hroundN : roundNatToDoublePrecision N = N := by
      rw [roundNatToDoublePrecision, if_pos hN]
    have hfin : isFiniteNumber ⟨(N : Int), 0⟩ = true := by
      have hlt : N < 2 ^ 1024 := lt_of_le_of_lt hN (by norm_num)
      simp [isFiniteNumber, hlt]
    have hlog : proposalIdFromLog L = some ⟨(N : Int), 0⟩ := by
      rw [proposalIdFromLog, hL]
      show extractProposalIdFromEvent ev = _
      unfold extractProposalIdFromEvent
      rw [hdata]
      simp only [hev, Bool.not_true, Bool.false_eq_true, if_false]
      rcases hid with h | ⟨ds, h, hdig, hval⟩
      · rw [h]
        simp [hfin]
      · rw [h]
        have hp : parseIntBase10 ds = N := by
          rw [parseIntBase10, hval, hroundN]
        simp [hdig, hp]
    rw [extractProposalId, findSome?_over_receipts, hflat, List.findSome?_append]
    have hpreNone : pre.findSome? proposalIdFromLog = none :=
      List.findSome?_eq_none_iff.mpr fun l hl => by rw [proposalIdFromLog, hpre l hl]
    rw [hpreNone, List.findSome?_cons]
    simp [hlog]
  · intro o h
    rw [extractProposalId]
    have hnone : o.receipts_outcome.findSome?
        (fun r => r.logs.findSome? proposalIdFromLog) = none :=
      List.findSome?_eq_none_iff.mpr fun r hr =>
        List.findSome?_eq_none_iff.mpr fun l hl => h r hr l hl
    rw [hnone]

/-- Witness for C5: the creation event for proposal 7 extracts id 7; an
outcome with only unstructured logs throws. -/
theorem extractProposalId_spec_witness :
    extractProposalId pendingOutcome7 = .ok ⟨7, 0⟩
      ∧ extractProposalId { receipts_outcome := [{ logs := ["hello"], status := .otherStatus }] }
          = .error "Failed to extract proposal ID from kernel logs." := by
  constructor
  · exact extractProposalId_spec.1
      [{ logs := [evLog7], status := .otherStatus }] [] [] evLog7
      { event := "proposal_created",
        data := some (.jarr [.jobj [("proposal_id", .jnum ⟨7, 0⟩)]]) }
      (.jobj [("proposal_id", .jnum ⟨7, 0⟩)]) [] 7 (by decide)
      rfl (by intro l hl; cases hl) (by intro l hl; cases hl) rfl rfl rfl (Or.inl rfl)
  · exact extractProposalId_spec.2
      { receipts_outcome := [{ logs := ["hello"], status := .otherStatus }] }
      (by intro r hr l hl
          simp at hr
          subst hr
          simp at hl
          subst hl
          rfl)

/-- **C2 counterexample.** On an outcome whose logs contain one
Ed25519-shaped and one Secp256k1-shaped signature line, the extractor
defined in `client.ts` — the one `proposeChainSigTransaction` and
`voteOnProposal` invoke after a proposal executes — returns only the
Secp256k1 signature: its log guard and shape test never admit the
Ed25519 line. -/
theorem clientExtractMPCSignatures_drops_ed25519 :
    parseJson edLine = some edVal ∧ isEd25519Signature edVal = true
      ∧ parseJson secpLine = some secpVal ∧ isSecp256k1Signature secpVal = true
      ∧ clientExtractMPCSignatures
          { receipts_outcome :=
              [{ logs := [edLine, noiseLine, secpLine], status := .otherStatus }] }
          = [secpVal] :=
  And.intro rfl (And.intro rfl ⟨rfl, rfl, rfl⟩)

/-- **C2 (amended).** The proposals-utility extractor
(`utils/proposals.ts`): on any outcome whose flattened receipt logs are one
Ed25519-shaped signature line and one Secp256k1-shaped signature line — in
either order — interleaved with lines that JSON-parse to neither shape (or
fail the relevance guard or do not parse), with no receipt status
contributing, it returns exactly the two signatures in log order, each
tagged with its correct structural variant. The `client.ts` copy of the
extractor does not satisfy this: see the counterexample. -/
theorem extractMPCSignatures_two_variants
    (rs : List ReceiptOutcome) (l1 l2 l3 : List String) (logA logB : String)
    (va vb : JVal)
    (hflat : rs.flatMap ReceiptOutcome.logs = l1 ++ logA :: (l2 ++ logB :: l3))
    (hquiet : ∀ r ∈ rs, signaturesFromStatus r.status = [])
    (hnoise : ∀ l, (l ∈ l1 ∨ l ∈ l2 ∨ l ∈ l3) → ∀ v, parseJson l = some v →
      isEd25519Signature v = false ∧ isSecp256k1Signature v = false)
    (haGuard : sigLogLooksRelevant logA = true) (haParse : parseJson logA = some va)
    (hbGuard : sigLogLooksRelevant logB = true) (hbParse : parseJson logB = some vb)
    (hvariants : (isEd25519Signature va = true ∧ isSecp256k1Signature vb = true)
      ∨ (isSecp256k1Signature va = true ∧ isEd25519Signature vb = true)) :
    extractMPCSignatures { receipts_outcome := rs } = [va, vb] := by
  have hshapeA : (isEd25519Signature va || isSecp256k1Signature va) = true := by
    rcases hvariants with ⟨h, -⟩ | ⟨h, -⟩ <;> simp [h]
  have hshapeB : (isEd25519Signature vb || isSecp256k1Signature vb) = true := by
    rcases hvariants with ⟨-, h⟩ | ⟨-, h⟩ <;> simp [h]
  rw [extractMPCSignatures_of_quiet_statuses rs hquiet, hflat]
  have noiseNil : ∀ (ls : List String), (∀ l ∈ ls, (l ∈ l1 ∨ l ∈ l2 ∨ l ∈ l3)) →
      ls.filterMap signatureFromLog = [] := by
    intro ls hls
    rw [List.filterMap_eq_nil_iff]
    intro l hl
    exact signatureFromLog_eq_none_of_non_matching l (hnoise l (hls l hl))
  have hlogA : signatureFromLog logA = some va := by
    rw [signatureFromLog]
    simp [haGuard, haParse, collectSignature, hshapeA]
  have hlogB : signatureFromLog logB = some vb := by
    rw [signatureFromLog]
    simp [hbGuard, hbParse, collectSignature, hshapeB]
  rw [List.filterMap_append, List.filterMap_cons, List.filterMap_append, List.filterMap_cons]
  rw [noiseNil l1 (fun l hl => Or.inl hl), noiseNil l2 (fun l hl => Or.inr (Or.inl hl)),
    noiseNil l3 (fun l hl => Or.inr (Or.inr hl)), hlogA, hlogB]
  rfl

/-- Witness for the amended C2, exercising both orders: a noise line, the
Ed25519 line and the Secp256k1 line yield exactly the two signatures, and
so does the Secp256k1-first arrangement. -/
theorem extractMPCSignatures_two_variants_witness :
    extractMPCSignatures
        { receipts_outcome :=
            [{ logs := [noiseLine, edLine, secpLine], status := .otherStatus }] }
        = [edVal, secpVal]
    ∧ extractMPCSignatures
        { receipts_outcome :=
            [{ logs := [secpLine, edLine], status := .otherStatus }] }
        = [secpVal, edVal] := by
  constructor
  · exact extractMPCSignatures_two_variants
      [{ logs := [noiseLine, edLine, secpLine], status := .otherStatus }]
      [noiseLine] [] [] edLine secpLine edVal secpVal
      rfl
      (by intro r hr
          simp at hr
          subst hr
          rfl)
      (by intro l hl v hv
          rcases hl with hl | hl | hl
          · simp at hl
            subst hl
            rw [show parseJson noiseLine = some noiseVal from rfl] at hv
            cases hv
            exact ⟨rfl, rfl⟩
          · cases hl
          · cases hl)
      rfl rfl rfl rfl (Or.inl ⟨rfl, rfl⟩)
  · exact extractMPCSignatures_two_variants
      [{ logs := [secpLine, edLine], status := .otherStatus }]
      [] [] [] secpLine edLine secpVal edVal
      rfl
      (by intro r hr
          simp at hr
          subst hr
          rfl)
      (by intro l hl v hv
          rcases hl with hl | hl | hl <;> cases hl)
      rfl rfl rfl rfl (Or.inr ⟨rfl, rfl⟩)

/-- Everything `collectChainSigResponses` keeps passes `isChainSigResponse`. -/
theorem mem_collectChainSigResponses (v : JVal) :
    ∀ x ∈ collectChainSigResponses v, isChainSigResponse x = true := by
  induction v using collectChainSigResponses.induct with
  | case1 items ih =>
    intro x hx
    rw [collectChainSigResponses] at hx
    simp only [List.mem_flatMap, List.mem_attach, true_and] at hx
    obtain ⟨⟨item, hmem⟩, hx⟩ := hx
    exact ih item hmem x hx
  | case2 v hne h =>
    intro x hx
    rw [collectChainSigResponses] at hx
    · cases v with
      | jarr items => exact absurd rfl (hne items)
      | jnull => simp_all
      | jbool b => simp_all
      | jnum n => simp_all
      | jstr s => simp_all
      | jobj ms => simp_all
    · exact hne
  | case3 v hne h =>
    intro x hx
    rw [collectChainSigResponses] at hx
    · cases v with
      | jarr items => exact absurd rfl (hne items)
      | jnull => simp_all
      | jbool b => simp_all
      | jnum n => simp_all
      | jstr s => simp_all
      | jobj ms => simp_all
    · exact hne

/-- Everything `extractChainSigResponses` returns passes `isChainSigResponse`. -/
theorem mem_extractChainSigResponses (o : FinalExecutionOutcome) :
    ∀ x ∈ extractChainSigResponses o, isChainSigResponse x = true := by
  intro x hx
  rw [extractChainSigResponses, List.mem_flatMap] at hx
  obtain ⟨r, -, hx⟩ := hx
  rw [List.mem_append] at hx
  rcases hx with hx | hx
  · rw [List.mem_flatMap] at hx
    obtain ⟨l, -, hx⟩ := hx
    rw [chainSigResponsesFromLog] at hx
    cases hp : parseJson l with
    | none => rw [hp] at hx; cases hx
    | some parsed => rw [hp] at hx; exact mem_collectChainSigResponses parsed x hx
  · cases hst : r.status with
    | otherStatus =>
      rw [hst] at hx
      simp only [chainSigResponsesFromStatus] at hx
      simp at hx
    | successValue s =>
      rw [hst] at hx
      simp only [chainSigResponsesFromStatus] at hx
      by_cases hd : b64DecodeToString s = ""
      · rw [if_pos hd] at hx
        simp at hx
      · rw [if_neg hd] at hx
        cases hp : parseJson (b64DecodeToString s) with
        | none =>
          rw [hp] at hx
          simp at hx
        | some parsed =>
          rw [hp] at hx
          exact mem_collectChainSigResponses parsed x hx

/-- An Ed25519-schemed response extracted from an outcome always carries an
array `signature` payload (the collection step validated its shape). -/
theorem extractEd25519Signature_of_outcome_is_array (o : FinalExecutionOutcome) (sig : JVal)
    (h : extractEd25519Signature (extractChainSigResponses o) = some sig) :
    ∃ items, sig = .jarr items := by
  rw [extractEd25519Signature] at h
  cases hf : (extractChainSigResponses o).find? respSchemeIsEd25519 with
  | none => rw [hf] at h; cases h
  | some r =>
    rw [hf] at h
    change jmember r "signature" = some sig at h
    have hmem := List.mem_of_find?_eq_some hf
    have hpb := List.find?_some hf
    have hresp := mem_extractChainSigResponses o r hmem
    unfold respSchemeIsEd25519 at hpb
    have hscheme : jmember r "scheme" = some (.jstr "Ed25519") := by
      cases hs : jmember r "scheme" with
      | none => rw [hs] at hpb; cases hpb
      | some sv =>
        rw [hs] at hpb
        cases sv with
        | jstr s =>
          have : s = "Ed25519" := by simpa using hpb
          rw [this]
        | jnull => simp at hpb
        | jbool b => simp at hpb
        | jnum n => simp at hpb
        | jarr a => simp at hpb
        | jobj ms => simp at hpb
    unfold isChainSigResponse at hresp
    rw [hscheme] at hresp
    cases hsig : jmember r "signature" with
    | none =>
      rw [hsig] at hresp
      simp at hresp
    | some sigv =>
      rw [hsig] at hresp
      cases sigv with
      | jarr items =>
        rw [hsig] at h
        cases h
        exact ⟨items, rfl⟩
      | jnull => simp at hresp
      | jbool b => simp at hresp
      | jnum n => simp at hresp
      | jstr s2 => simp at hresp
      | jobj ms => simp at hresp

/-- **C6.** `swapViaIntents`, from the proposal submission on: when no
Ed25519-variant response is extracted, it fails with the voting-required
error without consulting the solver publish endpoint (the result is the
error for every possible endpoint); when an Ed25519 signature is extracted,
it publishes the signed intent with the quote's hash as the single quote
hash. -/
theorem swapViaIntents_voting_gate :
    (∀ (publishIntent : PublishIntentsCall → Except String String)
       (quote : IntentsSwapQuote) (outcome : FinalExecutionOutcome),
       extractEd25519Signature (extractChainSigResponses outcome) = none →
       swapViaIntentsAfterProposal publishIntent quote outcome
         = .error "No Ed25519 signature returned; proposal may require voting.")
    ∧ (∀ (publishIntent : PublishIntentsCall → Except String String)
       (quote : IntentsSwapQuote) (outcome : FinalExecutionOutcome) (sig : JVal),
       extractEd25519Signature (extractChainSigResponses outcome) = some sig →
       ∃ items, sig = .jarr items
         ∧ swapViaIntentsAfterProposal publishIntent quote outcome
             = (publishIntent { quoteHashes := [quote.quote_hash], signatureItems := sig }).map
                 fun h => (h, { quoteHashes := [quote.quote_hash], signatureItems := sig })) := by
  constructor
  · intro publishIntent quote outcome h
    rw [swapViaIntentsAfterProposal, h]
  · intro publishIntent quote outcome sig h
    obtain ⟨items, hitems⟩ := extractEd25519Signature_of_outcome_is_array outcome sig h
    refine ⟨items, hitems, ?_⟩
    subst hitems
    rw [swapViaIntentsAfterProposal, h]
    show (match publishIntent (PublishIntentsCall.mk [quote.quote_hash] (JVal.jarr items)) with
          | Except.ok intentHash =>
            Except.ok (intentHash, PublishIntentsCall.mk [quote.quote_hash] (JVal.jarr items))
          | Except.error e => Except.error e) = _
    cases publishIntent { quoteHashes := [quote.quote_hash],
                          signatureItems := JVal.jarr items } with
    | ok ihash => rfl
    | error e => rfl

/-- Witness for C6: an empty outcome fails with the voting-required error;
the Ed25519-logging outcome publishes with the quote's hash. -/
theorem swapViaIntents_voting_gate_witness :
    swapViaIntentsAfterProposal (fun _ => .ok "ih") { quote_hash := "q" }
        { receipts_outcome := [] }
      = .error "No Ed25519 signature returned; proposal may require voting."
    ∧ ∃ items,
        (.jarr [.jnum ⟨1, 0⟩, .jnum ⟨2, 0⟩, .jnum ⟨3, 0⟩] : JVal) = .jarr items
        ∧ swapViaIntentsAfterProposal (fun _ => .ok "ih") { quote_hash := "q" }
              intentsExecutedOutcome
            = ((fun (_ : PublishIntentsCall) => (.ok "ih" : Except String String))
                  { quoteHashes := ["q"],
                    signatureItems := .jarr [.jnum ⟨1, 0⟩, .jnum ⟨2, 0⟩, .jnum ⟨3, 0⟩] }).map
                fun h => (h, { quoteHashes := ["q"],
                               signatureItems := .jarr [.jnum ⟨1, 0⟩, .jnum ⟨2, 0⟩, .jnum ⟨3, 0⟩] }) := by
  constructor
  · exact swapViaIntents_voting_gate.1 (fun _ => .ok "ih") { quote_hash := "q" }
      { receipts_outcome := [] } rfl
  · exact swapViaIntents_voting_gate.2 (fun _ => .ok "ih") { quote_hash := "q" }
      intentsExecutedOutcome (.jarr [.jnum ⟨1, 0⟩, .jnum ⟨2, 0⟩, .jnum ⟨3, 0⟩])
      (by have hcol : collectChainSigResponses edVal = [edVal] := by
            rw [collectChainSigResponses]
            · rw [if_pos (show isChainSigResponse edVal = true from rfl)]
            · intro items hcontra
              simp [edVal] at hcontra
          have hresp : extractChainSigResponses intentsExecutedOutcome = [edVal] := by
            rw [extractChainSigResponses]
            simp [intentsExecutedOutcome, chainSigResponsesFromLog, chainSigResponsesFromStatus,
              show parseJson edLine = some edVal from rfl, hcol]
          rw [hresp]
          rfl)

/-- **C7.** `buildNearTransaction` constructs the unsigned transaction with
nonce equal to the resolved signer's current nonce plus one, for all three
signer descriptor variants, with the signer id and public key resolved by
access-key lookup for the wallet and ChainSig variants and taken verbatim
from the caller for the explicit variant. -/
theorem buildNearTransaction_nonce_and_signer :
    (∀ (env : NearRpcEnv) (receiverId : String) (actions : List NearAction)
       (w : NearWallet) (pk : String) (ak : AccessKey),
       w.findAccessKey receiverId actions = (pk, ak) →
       buildNearTransaction env receiverId actions (.account (some w))
         = .ok { transaction := { signerId := w.accountId, publicKey := pk,
                                  receiverId := receiverId, nonce := ak.nonce + 1,
                                  actions := actions, blockHash := env.blockHash },
                 signerId := w.accountId, publicKey := pk, nonce := ak.nonce })
    ∧ (∀ (env : NearRpcEnv) (receiverId : String) (actions : List NearAction)
       (path : String) (net : Option NearNetwork),
       buildNearTransaction env receiverId actions (.chainSig path net)
         = .ok { transaction :=
                   { signerId := (env.deriveAddressAndPublicKey path (net.getD .mainnet)).address,
                     publicKey := (env.deriveAddressAndPublicKey path (net.getD .mainnet)).public_key,
                     receiverId := receiverId,
                     nonce := (env.viewAccessKey
                         (env.deriveAddressAndPublicKey path (net.getD .mainnet)).address
                         (env.deriveAddressAndPublicKey path (net.getD .mainnet)).public_key).nonce
                       + 1,
                     actions := actions, blockHash := env.blockHash },
                 signerId := (env.deriveAddressAndPublicKey path (net.getD .mainnet)).address,
                 publicKey := (env.deriveAddressAndPublicKey path (net.getD .mainnet)).public_key,
                 nonce := (env.viewAccessKey
                     (env.deriveAddressAndPublicKey path (net.getD .mainnet)).address
                     (env.deriveAddressAndPublicKey path (net.getD .mainnet)).public_key).nonce })
    ∧ (∀ (env : NearRpcEnv) (receiverId : String) (actions : List NearAction)
       (signerId publicKey : String) (nonce : Nat),
       buildNearTransaction env receiverId actions (.explicitSigner signerId publicKey nonce)
         = .ok { transaction := { signerId := signerId, publicKey := publicKey,
                                  receiverId := receiverId, nonce := nonce + 1,
                                  actions := actions, blockHash := env.blockHash },
                 signerId := signerId, publicKey := publicKey, nonce := nonce }) := by
  refine And.intro ?wallet (And.intro ?derived ?explicitCase)
  case wallet =>
    intro env receiverId actions w pk ak hfa
    have hres : resolveNearTransactionSigner env (.account (some w)) receiverId actions
        = .ok { signerId := w.accountId, publicKey := pk, nonce := ak.nonce } := by
      show (match w.findAccessKey receiverId actions with
            | (publicKey, accessKey) =>
              Except.ok (ResolvedSigner.mk w.accountId publicKey accessKey.nonce)) = _
      rw [hfa]
    unfold buildNearTransaction
    rw [hres]
  case derived =>
    intro env receiverId actions path net
    rfl
  case explicitCase =>
    intro env receiverId actions signerId publicKey nonce
    rfl

/-- Witness for C7: the three signer variants at a concrete environment. -/
theorem buildNearTransaction_nonce_and_signer_witness :
    buildNearTransaction envFixture "kernel.near" ["act"] (.account (some walletFixture))
      = .ok { transaction := { signerId := "alice.near", publicKey := "ed25519:PKA",
                               receiverId := "kernel.near", nonce := 6,
                               actions := ["act"], blockHash := [1, 2, 3] },
              signerId := "alice.near", publicKey := "ed25519:PKA", nonce := 5 }
    ∧ buildNearTransaction envFixture "kernel.near" ["act"] (.chainSig "path-0" none)
      = .ok { transaction := { signerId := "derived.near", publicKey := "ed25519:PKD",
                               receiverId := "kernel.near", nonce := 10,
                               actions := ["act"], blockHash := [1, 2, 3] },
              signerId := "derived.near", publicKey := "ed25519:PKD", nonce := 9 }
    ∧ buildNearTransaction envFixture "kernel.near" ["act"] (.explicitSigner "bob.near" "pkB" 41)
      = .ok { transaction := { signerId := "bob.near", publicKey := "pkB",
                               receiverId := "kernel.near", nonce := 42,
                               actions := ["act"], blockHash := [1, 2, 3] },
              signerId := "bob.near", publicKey := "pkB", nonce := 41 } :=
  ⟨buildNearTransaction_nonce_and_signer.1 envFixture "kernel.near" ["act"]
      walletFixture "ed25519:PKA" ⟨5⟩ rfl,
   buildNearTransaction_nonce_and_signer.2.1 envFixture "kernel.near" ["act"] "path-0" none,
   buildNearTransaction_nonce_and_signer.2.2 envFixture "kernel.near" ["act"] "bob.near" "pkB" 41⟩

/-- When every attempt up to the budget fails, the run makes `times + 1`
invocations, sleeps `times` fixed intervals, and ends with the last error. -/
theorem retryRun_all_fail {ε α : Type} (fn : Nat → Except ε α) (interval : Nat) (errs : Nat → ε) :
    ∀ (times start : Nat), (∀ i, i ≤ times → fn (start + i) = .error (errs (start + i))) →
      retryRun fn interval start times
        = (.error (errs (start + times)), times + 1, List.replicate times interval)
  | 0, start, h => by
    have h0 := h 0 (Nat.le_refl 0)
    rw [Nat.add_zero] at h0
    unfold retryRun
    rw [h0]
    rfl
  | t + 1, start, h => by
    have h0 := h 0 (Nat.zero_le _)
    rw [Nat.add_zero] at h0
    have ihh : ∀ i, i ≤ t → fn (start + 1 + i) = .error (errs (start + 1 + i)) := by
      intro i hi
      have hstep := h (i + 1) (Nat.succ_le_succ hi)
      rwa [show start + (i + 1) = start + 1 + i by omega] at hstep
    have ih := retryRun_all_fail fn interval errs t (start + 1) ihh
    unfold retryRun
    rw [h0]
    show (match retryRun fn interval (start + 1) t with
          | (res, calls, sleeps) => (res, calls + 1, interval :: sleeps)) = _
    rw [ih, show start + 1 + t = start + (t + 1) by omega, List.replicate_succ]

/-- When the first success is at attempt `j ≤ times`, the run returns its
value after `j + 1` invocations and `j` sleeps. -/
theorem retryRun_first_success {ε α : Type} (fn : Nat → Except ε α) (interval : Nat) (v : α) :
    ∀ (j times start : Nat), j ≤ times → fn (start + j) = .ok v →
      (∀ i, i < j → ∃ e, fn (start + i) = .error e) →
      retryRun fn interval start times = (.ok v, j + 1, List.replicate j interval)
  | 0, times, start, _, hok, _ => by
    rw [Nat.add_zero] at hok
    unfold retryRun
    rw [hok]
    rfl
  | j + 1, times, start, hj, hok, herr => by
    obtain ⟨e, he⟩ := herr 0 (Nat.succ_pos j)
    rw [Nat.add_zero] at he
    cases times with
    | zero => exact absurd hj (by omega)
    | succ t =>
      have ih := retryRun_first_success fn interval v j t (start + 1) (by omega)
        (by rwa [show start + 1 + j = start + (j + 1) by omega])
        (by intro i hi
            obtain ⟨e', he'⟩ := herr (i + 1) (by omega)
            exact ⟨e', by rwa [show start + 1 + i = start + (i + 1) by omega]⟩)
      unfold retryRun
      rw [he]
      show (match retryRun fn interval (start + 1) t with
            | (res, calls, sleeps) => (res, calls + 1, interval :: sleeps)) = _
      rw [ih, List.replicate_succ]

/-- **C8.** For every attempt budget `times = n` and fixed `interval`: when
every invocation fails, `retry` invokes `fn` exactly `n + 1` times, sleeps
the fixed interval between consecutive invocations (`n` sleeps of
`interval`), and rethrows the final invocation's error; when the first
success is at attempt `j ≤ n`, its value is returned after `j + 1`
invocations — `fn` is not invoked again. -/
theorem retry_bounded_attempts :
    (∀ (ε α : Type) (fn : Nat → Except ε α) (times interval : Nat) (errs : Nat → ε),
       (∀ i, i ≤ times → fn i = .error (errs i)) →
       retry fn times interval = (.error (errs times), times + 1, List.replicate times interval))
    ∧ (∀ (ε α : Type) (fn : Nat → Except ε α) (times interval : Nat) (v : α) (j : Nat),
       j ≤ times → fn j = .ok v → (∀ i, i < j → ∃ e, fn i = .error e) →
       retry fn times interval = (.ok v, j + 1, List.replicate j interval)) := by
  constructor
  · intro ε α fn times interval errs h
    have hrun := retryRun_all_fail fn interval errs times 0 (by intro i hi; simpa using h i hi)
    simpa [retry] using hrun
  · intro ε α fn times interval v j hj hok herr
    have hrun := retryRun_first_success fn interval v j times 0 hj (by simpa using hok)
      (by intro i hi; simpa using herr i hi)
    simpa [retry] using hrun

/-- Witness for C8: a function failing twice then succeeding, and a function
that always fails, under budget 5 and interval 50. -/
theorem retry_bounded_attempts_witness :
    retry (fun i => if i < 2 then Except.error "boom" else Except.ok 7) 5 50
      = (.ok 7, 3, [50, 50])
    ∧ retry (fun _ => (Except.error "boom" : Except String Nat)) 2 50
      = (.error "boom", 3, [50, 50]) := by
  constructor
  · have h := retry_bounded_attempts.2 String Nat
      (fun i => if i < 2 then Except.error "boom" else Except.ok 7) 5 50 7 2
      (by omega) (by rfl)
      (by intro i hi
          refine ⟨"boom", ?_⟩
          obtain h0 | h1 : i = 0 ∨ i = 1 := by omega
          · rw [h0]
            rfl
          · rw [h1]
            rfl)
    simpa using h
  · have h := retry_bounded_attempts.1 String Nat
      (fun _ => Except.error "boom") 2 50 (fun _ => "boom") (by intro i _; rfl)
    simpa using h

/-- `"0x" ++ s` always begins with `"0x"`. -/
theorem strBeginsWith_append_0x (s : String) : strBeginsWith ("0x" ++ s) "0x" = true := by
  have h : ("0x" ++ s).toList = '0' :: 'x' :: s.toList := rfl
  rw [strBeginsWith, h]
  simp [leadsWith]

/-- **C10.** `normalizeChainSigEncodedTx` is idempotent on string payloads
for every encoding option; in particular, an even-length hex-only string
without the `0x` prefix receives the prefix exactly once. -/
theorem normalizeChainSigEncodedTx_idempotent_on_strings :
    (∀ (s : String) (encoding : Option ChainSigEncoding),
       normalizeChainSigEncodedTx
           (.strPayload (normalizeChainSigEncodedTx (.strPayload s) encoding)) encoding
         = normalizeChainSigEncodedTx (.strPayload s) encoding)
    ∧ (∀ s : String, strBeginsWith s "0x" = false → isLikelyHex s = true →
       normalizeChainSigEncodedTx (.strPayload s) none = "0x" ++ s
         ∧ normalizeChainSigEncodedTx (.strPayload ("0x" ++ s)) none = "0x" ++ s) := by
  constructor
  · intro s encoding
    match encoding with
    | some .base64 => rfl
    | some .hex =>
      by_cases hb : strBeginsWith s "0x" = true
      · simp [normalizeChainSigEncodedTx, hb]
      · simp [normalizeChainSigEncodedTx, hb, strBeginsWith_append_0x s]
    | none =>
      by_cases hb : strBeginsWith s "0x" = true
      · simp [normalizeChainSigEncodedTx, hb]
      · by_cases hh : isLikelyHex s = true
        · simp [normalizeChainSigEncodedTx, hb, hh, strBeginsWith_append_0x s]
        · simp [normalizeChainSigEncodedTx, hb, hh]
  · intro s hb hh
    constructor
    · simp [normalizeChainSigEncodedTx, hb, hh]
    · simp [normalizeChainSigEncodedTx, strBeginsWith_append_0x s]

/-- Witness for C10: `"abcd"` is prefixed exactly once, and the
normalization is idempotent there. -/
theorem normalizeChainSigEncodedTx_idempotent_witness :
    normalizeChainSigEncodedTx (.strPayload "abcd") none = "0x" ++ "abcd"
      ∧ normalizeChainSigEncodedTx (.strPayload ("0x" ++ "abcd")) none = "0x" ++ "abcd"
      ∧ normalizeChainSigEncodedTx
            (.strPayload (normalizeChainSigEncodedTx (.strPayload "abcd") none)) none
          = normalizeChainSigEncodedTx (.strPayload "abcd") none := by
  have h := normalizeChainSigEncodedTx_idempotent_on_strings.2 "abcd" (by decide) (by decide)
  exact ⟨h.1, h.2, normalizeChainSigEncodedTx_idempotent_on_strings.1 "abcd" none⟩

/-- **C1 counterexample.** The claim fails for `proposeChainSigTransaction`:
at a creation-only outcome the result is the pending variant, yet it carries
no proposal snapshot at all (the result union has no such field), even
though the view oracle has one to give. -/
theorem proposeChainSigTransaction_pending_no_snapshot :
    ¬ (∀ (getProposal : JsNumber → Option Proposal) (o : FinalExecutionOutcome)
         (res : ChainSigTransactionProposalResult),
         proposeChainSigTransaction getProposal o = .ok res →
         res.executedFlag = false →
         ∃ p, res.proposalSnapshot = some p ∧ getProposal res.proposalIdOf = some p) := by
  intro hclaim
  obtain ⟨p, hp, -⟩ :=
    hclaim getProposalFixture pendingOutcome7 (.pendingR ⟨7, 0⟩ pendingOutcome7) rfl rfl
  simp [ChainSigTransactionProposalResult.proposalSnapshot] at hp

/-- **C1 (amended).** Pending results of `voteOnProposal` and of the
kernel-core proposal helper carry the freshly fetched snapshot (the view
oracle's answer for the extracted id, consulted only after classification
returned false); pending results of `proposeChainSigTransaction` and
`proposeNearActions` carry only the proposal id and the raw outcome, with
no snapshot. -/
theorem pending_snapshot_policy :
    (∀ (g : JsNumber → Option Proposal) (o : FinalExecutionOutcome)
       (pid : JsNumber) (p : Proposal),
       proposeExecutionKernelCoreFunction g o = .ok (.pendingR pid p) →
       wasProposalExecuted o = false ∧ g pid = some p)
    ∧ (∀ (g : JsNumber → Option Proposal) (pid0 : JsNumber) (o : FinalExecutionOutcome)
       (pid : JsNumber) (p : Proposal),
       voteOnProposal g pid0 o = .ok (.pendingR pid p) →
       wasProposalExecuted o = false ∧ pid = pid0 ∧ g pid0 = some p)
    ∧ (∀ (g : JsNumber → Option Proposal) (o : FinalExecutionOutcome)
       (pid : JsNumber) (out : FinalExecutionOutcome),
       proposeChainSigTransaction g o = .ok (.pendingR pid out) →
       wasProposalExecuted o = false ∧ out = o
         ∧ ChainSigTransactionProposalResult.proposalSnapshot (.pendingR pid out) = none)
    ∧ (∀ (g : JsNumber → Option Proposal) (o : FinalExecutionOutcome)
       (pid : JsNumber) (out : FinalExecutionOutcome),
       proposeNearActions g o = .ok (.pendingR pid out) →
       wasProposalExecuted o = false ∧ out = o
         ∧ NearProposalResult.proposalSnapshot (.pendingR pid out) = none) := by
  refine And.intro ?kernelCore (And.intro ?vote (And.intro ?chainSigCase ?nearActions))
  case kernelCore =>
    intro g o pid p h
    unfold proposeExecutionKernelCoreFunction at h
    cases hX : extractProposalId o with
    | error e => rw [hX] at h; cases h
    | ok pid1 =>
      rw [hX] at h
      by_cases hE : wasProposalExecuted o = true
      · simp [hE] at h
      · rw [Bool.not_eq_true] at hE
        rw [hE] at h
        simp only [Bool.false_eq_true, if_false] at h
        cases hg : g pid1 with
        | none => rw [hg] at h; cases h
        | some pr =>
          rw [hg] at h
          simp only [Except.ok.injEq, KernelCoreProposalResult.pendingR.injEq] at h
          obtain ⟨hpid, hp⟩ := h
          subst hpid
          subst hp
          exact ⟨hE, hg⟩
  case vote =>
    intro g pid0 o pid p h
    unfold voteOnProposal at h
    by_cases hE : wasProposalExecuted o = true
    · rw [hE] at h
      simp only [if_true] at h
      by_cases hn : (clientExtractMPCSignatures o).length ≠ 0
      · simp [hn] at h
      · simp [hn] at h
    · rw [Bool.not_eq_true] at hE
      rw [hE] at h
      simp only [Bool.false_eq_true, if_false] at h
      cases hg : g pid0 with
      | none => rw [hg] at h; cases h
      | some pr =>
        rw [hg] at h
        simp only [Except.ok.injEq, VoteProposalResult.pendingR.injEq] at h
        obtain ⟨hpid, hp⟩ := h
        subst hpid
        subst hp
        exact ⟨hE, rfl, rfl⟩
  case chainSigCase =>
    intro g o pid out h
    unfold proposeChainSigTransaction at h
    cases hX : extractProposalId o with
    | error e => rw [hX] at h; cases h
    | ok pid1 =>
      rw [hX] at h
      by_cases hE : wasProposalExecuted o = true
      · simp [hE] at h
      · rw [Bool.not_eq_true] at hE
        rw [hE] at h
        simp only [Bool.false_eq_true, if_false, Except.ok.injEq,
          ChainSigTransactionProposalResult.pendingR.injEq] at h
        obtain ⟨-, hout⟩ := h
        subst hout
        exact ⟨hE, rfl, rfl⟩
  case nearActions =>
    intro g o pid out h
    unfold proposeNearActions at h
    cases hX : extractProposalId o with
    | error e => rw [hX] at h; cases h
    | ok pid1 =>
      rw [hX] at h
      by_cases hE : wasProposalExecuted o = true
      · simp [hE] at h
      · rw [Bool.not_eq_true] at hE
        rw [hE] at h
        simp only [Bool.false_eq_true, if_false, Except.ok.injEq,
          NearProposalResult.pendingR.injEq] at h
        obtain ⟨-, hout⟩ := h
        subst hout
        exact ⟨hE, rfl, rfl⟩

/-- Witness for the amended C1: all four operations at the creation-only
outcome for proposal 7 under the fixture view oracle. -/
theorem pending_snapshot_policy_witness :
    (wasProposalExecuted pendingOutcome7 = false
        ∧ getProposalFixture ⟨7, 0⟩ = some proposalFixture)
      ∧ (wasProposalExecuted pendingOutcome7 = false
        ∧ (⟨7, 0⟩ : JsNumber) = ⟨7, 0⟩ ∧ getProposalFixture ⟨7, 0⟩ = some proposalFixture)
      ∧ (wasProposalExecuted pendingOutcome7 = false ∧ pendingOutcome7 = pendingOutcome7
        ∧ ChainSigTransactionProposalResult.proposalSnapshot (.pendingR ⟨7, 0⟩ pendingOutcome7)
            = none)
      ∧ (wasProposalExecuted pendingOutcome7 = false ∧ pendingOutcome7 = pendingOutcome7
        ∧ NearProposalResult.proposalSnapshot (.pendingR ⟨7, 0⟩ pendingOutcome7) = none) :=
  ⟨pending_snapshot_policy.1 getProposalFixture pendingOutcome7 ⟨7, 0⟩ proposalFixture rfl,
   pending_snapshot_policy.2.1 getProposalFixture ⟨7, 0⟩ pendingOutcome7 ⟨7, 0⟩
     proposalFixture rfl,
   pending_snapshot_policy.2.2.1 getProposalFixture pendingOutcome7 ⟨7, 0⟩ pendingOutcome7 rfl,
   pending_snapshot_policy.2.2.2 getProposalFixture pendingOutcome7 ⟨7, 0⟩ pendingOutcome7 rfl⟩

end DewSpec
